import Mathlib

/-!
Verification of the reaction-diffusion engine in src/julia-explorer/main.js.

The engine advances a two-channel concentration field (chemicals A and B)
on a square toroidal grid.  The GPU fragment shaders are embedded here as
pure functions over real numbers: a texture is a function from integer
cell coordinates to an (A, B) pair of reals, texel channels r and g are
the pair components, and the REPEAT wrap mode becomes index arithmetic
modulo the resolution.  Stateful ping-pong buffering is embedded as
explicit state passing over a two-buffer record.
-/

noncomputable section

/-- A concentration field: cell coordinates to (A, B) channel values.
Embeds a GL texture (r = A, g = B); only indices below the resolution
are meaningful. -/
abbrev Grid := ℕ → ℕ → ℝ × ℝ

/-- The model selector stored in params.system
(code values gray-scott, brusselator, schnakenberg). -/
inductive ModelKind
  | grayScott
  | brusselator
  | schnakenberg
  deriving DecidableEq

/-- Simulation parameters, from the TuringSimulation constructor
(this.params). -/
structure Params where
  feedRate : ℝ
  killRate : ℝ
  diffusionA : ℝ
  diffusionB : ℝ
  simSpeed : ℝ
  system : ModelKind

/-- Constructor defaults for this.params in main.js. -/
def defaultParams : Params :=
  { feedRate := 0.055
    killRate := 0.062
    diffusionA := 0.21
    diffusionB := 0.105
    simSpeed := 1.0
    system := ModelKind.grayScott }

/-- GLSL clamp(x, 0.0, 1.0) = min(max(x, minVal), maxVal). -/
def clamp01 (x : ℝ) : ℝ := min 1 (max 0 x)

theorem clamp01_nonneg (x : ℝ) : 0 ≤ clamp01 x :=
  le_min (by norm_num) (le_max_left 0 x)

theorem clamp01_le_one (x : ℝ) : clamp01 x ≤ 1 := min_le_left 1 _

/-- One cell of one simulation sub-step: the body of simulationSource
(the Gray-Scott fragment shader, main.js lines 826-877).  Neighbor
samples at offsets of one texel wrap modulo the resolution because the
textures use gl.REPEAT wrap; x+1 is east, y+1 is the up direction of the
shader.  The shader declares a uniform u_system but never reads it (and
simulate() never sets it), so the update is the Gray-Scott rule for
every selected model. -/
def stepCell (R : ℕ) (p : Params) (dt : ℝ) (g : Grid) (x y : ℕ) : ℝ × ℝ :=
  let xm := (x + (R - 1)) % R
  let xp := (x + 1) % R
  let ym := (y + (R - 1)) % R
  let yp := (y + 1) % R
  let a := (g x y).1
  let b := (g x y).2
  let lapA :=
    ((g xm y).1 + (g xp y).1 + (g x yp).1 + (g x ym).1) * 0.2
      + ((g xm yp).1 + (g xp yp).1 + (g xm ym).1 + (g xp ym).1) * 0.05 - a
  let lapB :=
    ((g xm y).2 + (g xp y).2 + (g x yp).2 + (g x ym).2) * 0.2
      + ((g xm yp).2 + (g xp yp).2 + (g xm ym).2 + (g xp ym).2) * 0.05 - b
  let reaction := a * b * b
  let newA := a + (p.diffusionA * lapA - reaction + p.feedRate * (1 - a)) * dt
  let newB := b + (p.diffusionB * lapB + reaction - (p.killRate + p.feedRate) * b) * dt
  (clamp01 newA, clamp01 newB)

/-- One full-grid sub-step (one draw of the simulation program). -/
def stepGrid (R : ℕ) (p : Params) (dt : ℝ) (g : Grid) : Grid :=
  fun x y => stepCell R p dt g x y

/-- n sub-steps with dt = 1.0, the value simulate() passes for u_dt. -/
def stepIter (R : ℕ) (p : Params) (n : ℕ) (g : Grid) : Grid :=
  (stepGrid R p 1)^[n] g

/-- A field produced by seedPattern(): channel A is 255/255 = 1
everywhere and channel B is either 0 or 255/255 = 1 in every cell. -/
def IsSeeded (g : Grid) : Prop :=
  ∀ x y, (g x y).1 = 1 ∧ ((g x y).2 = 0 ∨ (g x y).2 = 1)

/-- An all-A field (the seedPattern background away from every seed). -/
def seedA : Grid := fun _ _ => (1, 0)

theorem stepCell_fst (R : ℕ) (p : Params) (dt : ℝ) (g : Grid) (x y : ℕ) :
    0 ≤ (stepCell R p dt g x y).1 ∧ (stepCell R p dt g x y).1 ≤ 1 := by
  simp only [stepCell]
  exact ⟨clamp01_nonneg _, clamp01_le_one _⟩

theorem stepCell_snd (R : ℕ) (p : Params) (dt : ℝ) (g : Grid) (x y : ℕ) :
    0 ≤ (stepCell R p dt g x y).2 ∧ (stepCell R p dt g x y).2 ≤ 1 := by
  simp only [stepCell]
  exact ⟨clamp01_nonneg _, clamp01_le_one _⟩

/-- C1: for every parameter tuple and every seeded initial field, after
any number of sub-steps both channels of every cell lie within [0, 1],
because every sub-step writes clamped values. -/
theorem clamp_invariant (R : ℕ) (p : Params) (g : Grid) (hg : IsSeeded g)
    (n x y : ℕ) :
    (0 ≤ (stepIter R p n g x y).1 ∧ (stepIter R p n g x y).1 ≤ 1) ∧
      (0 ≤ (stepIter R p n g x y).2 ∧ (stepIter R p n g x y).2 ≤ 1) := by
  cases n with
  | zero =>
      obtain ⟨ha, hb⟩ := hg x y
      simp only [stepIter, Function.iterate_zero, id_eq]
      rw [ha]
      rcases hb with hb | hb <;> rw [hb] <;> norm_num
  | succ m =>
      have hrw : stepIter R p (m + 1) g = stepGrid R p 1 (stepIter R p m g) := by
        simp only [stepIter, Function.iterate_succ_apply']
      rw [hrw]
      exact ⟨stepCell_fst R p 1 (stepIter R p m g) x y,
        stepCell_snd R p 1 (stepIter R p m g) x y⟩

theorem clamp_invariant_witness :
    (0 ≤ (stepIter 8 defaultParams 3 seedA 0 0).1 ∧
        (stepIter 8 defaultParams 3 seedA 0 0).1 ≤ 1) ∧
      (0 ≤ (stepIter 8 defaultParams 3 seedA 0 0).2 ∧
        (stepIter 8 defaultParams 3 seedA 0 0).2 ≤ 1) :=
  clamp_invariant 8 defaultParams seedA (fun _ _ => ⟨rfl, Or.inl rfl⟩) 3 0 0

/-- The spec formulation of the 9-point toroidal Laplacian of channel A:
0.2 times the orthogonal neighbors plus 0.05 times the diagonal
neighbors minus the center. -/
def torLapA (R : ℕ) (g : Grid) (x y : ℕ) : ℝ :=
  0.2 * ((g ((x + 1) % R) y).1 + (g ((x + (R - 1)) % R) y).1
      + (g x ((y + 1) % R)).1 + (g x ((y + (R - 1)) % R)).1)
    + 0.05 * ((g ((x + (R - 1)) % R) ((y + 1) % R)).1
      + (g ((x + 1) % R) ((y + 1) % R)).1
      + (g ((x + (R - 1)) % R) ((y + (R - 1)) % R)).1
      + (g ((x + 1) % R) ((y + (R - 1)) % R)).1)
    - (g x y).1

/-- The spec formulation of the 9-point toroidal Laplacian of channel B. -/
def torLapB (R : ℕ) (g : Grid) (x y : ℕ) : ℝ :=
  0.2 * ((g ((x + 1) % R) y).2 + (g ((x + (R - 1)) % R) y).2
      + (g x ((y + 1) % R)).2 + (g x ((y + (R - 1)) % R)).2)
    + 0.05 * ((g ((x + (R - 1)) % R) ((y + 1) % R)).2
      + (g ((x + 1) % R) ((y + 1) % R)).2
      + (g ((x + (R - 1)) % R) ((y + (R - 1)) % R)).2
      + (g ((x + 1) % R) ((y + (R - 1)) % R)).2)
    - (g x y).2

/-- The spec formulation of the Gray-Scott rate of change of A. -/
def spec_da (a b F : ℝ) : ℝ := -(a * b * b) + F * (1 - a)

/-- The spec formulation of the Gray-Scott rate of change of B. -/
def spec_db (a b F K : ℝ) : ℝ := a * b * b - (K + F) * b

/-- C2: every sub-step computes the 9-point toroidal Laplacian, the
Gray-Scott rates da and db, and writes
newA = clamp01(a + dt * (diffusionA * lapA + da)) and
newB = clamp01(b + dt * (diffusionB * lapB + db)) with dt = 1.0, the
value simulate() passes. -/
theorem step_formula (R : ℕ) (p : Params) (g : Grid) (x y : ℕ) :
    stepCell R p 1 g x y =
      (clamp01 ((g x y).1 +
          1 * (p.diffusionA * torLapA R g x y
            + spec_da (g x y).1 (g x y).2 p.feedRate)),
        clamp01 ((g x y).2 +
          1 * (p.diffusionB * torLapB R g x y
            + spec_db (g x y).1 (g x y).2 p.feedRate p.killRate))) := by
  simp only [stepCell, torLapA, torLapB, spec_da, spec_db]
  refine Prod.ext ?_ ?_ <;> · simp only; congr 1; ring

/-- The reaction rates the engine applies when the model s is selected.
The fragment shader declares the uniform u_system but its body never
branches on it, and simulate() never sets that uniform: whatever
params.system holds, the shader computes the Gray-Scott terms
(-a*b*b + F*(1-a), a*b*b - (K+F)*b).  The binder for the model is
therefore unused, mirroring the source. -/
def reactionRates (_ : ModelKind) (a b F K : ℝ) : ℝ × ℝ :=
  (-(a * b * b) + F * (1 - a), a * b * b - (K + F) * b)

/-- C4 counterexample: there is no pair of distinct models and no input
at which the applied reaction rates differ, because the shader never
dispatches on the model selector. -/
theorem kinetics_dispatch_counterexample :
    ¬ ∃ (s₁ s₂ : ModelKind) (a b F K : ℝ),
        s₁ ≠ s₂ ∧ reactionRates s₁ a b F K ≠ reactionRates s₂ a b F K := by
  rintro ⟨s₁, s₂, a, b, F, K, -, hdiff⟩
  exact hdiff rfl

/-- C4 amended: the model enum selects only the UI description and the
preset list; the stepper applies the Gray-Scott rates for every model,
so any two selected models produce identical reaction rates and
identical sub-step results. -/
theorem kinetics_model_independent (s₁ s₂ : ModelKind) (p : Params)
    (R : ℕ) (g : Grid) (x y : ℕ) (a b F K : ℝ) :
    reactionRates s₁ a b F K = reactionRates s₂ a b F K ∧
      reactionRates s₁ a b F K = (spec_da a b F, spec_db a b F K) ∧
      stepCell R { p with system := s₁ } 1 g x y
        = stepCell R { p with system := s₂ } 1 g x y :=
  ⟨rfl, rfl, rfl⟩

/-- The feedRate slider callback in setupUI/setupSlider:
(v) => this.params.feedRate = v.  The stored value is the raw input. -/
def setFeedRate (p : Params) (v : ℝ) : Params := { p with feedRate := v }

/-- The killRate slider callback in setupUI/setupSlider:
(v) => this.params.killRate = v.  The stored value is the raw input. -/
def setKillRate (p : Params) (v : ℝ) : Params := { p with killRate := v }

/-- The publishing step of updateJourney (main.js lines 1211-1215):
feedRate = max(0, min(0.1, f)) and killRate = max(0, min(0.08, k)). -/
def journeyPublish (p : Params) (f k : ℝ) : Params :=
  { p with feedRate := max 0 (min 0.1 f), killRate := max 0 (min 0.08 k) }

/-- The eased progress of animateToParams at a given elapsed time:
progress = min(1, elapsed / 1000) and eased = 1 - (1 - progress)^3,
with the duration fixed at 1000 ms in the source. -/
def easedProgress (elapsed : ℝ) : ℝ := 1 - (1 - min 1 (elapsed / 1000)) ^ 3

/-- One animation-frame sample of animateToParams for a single scalar:
start + (target - start) * eased. -/
def easeValue (start target elapsed : ℝ) : ℝ :=
  start + (target - start) * easedProgress elapsed

/-- The parameters animateToParams(targetF, targetK) publishes at a
given elapsed time, starting from the params p it captured. -/
def easeParamsAt (p : Params) (targetF targetK elapsed : ℝ) : Params :=
  { p with feedRate := easeValue p.feedRate targetF elapsed
           killRate := easeValue p.killRate targetK elapsed }

/-- C3 counterexample: a manual slider set with F = -1 and K = 10 stores
the raw inputs -1 and 10; the slider callbacks never clamp, so the
stored values are not the domain floor 0 and ceiling 0.08. -/
theorem manual_set_unclamped :
    (setFeedRate defaultParams (-1)).feedRate = -1 ∧
      (setKillRate defaultParams 10).killRate = 10 ∧
      (setFeedRate defaultParams (-1)).feedRate ≠ 0 ∧
      (setKillRate defaultParams 10).killRate ≠ 0.08 := by
  refine ⟨rfl, rfl, ?_, ?_⟩ <;> norm_num [setFeedRate, setKillRate]

/-- C3 amended: only journey-driven updates clamp the parameters (F into
[0, 0.1] and K into [0, 0.08]); manual slider sets and eased transitions
store the raw values unclamped. -/
theorem param_clamp_journey_only (p : Params) (f k v w tF tK e : ℝ) :
    (0 ≤ (journeyPublish p f k).feedRate ∧
        (journeyPublish p f k).feedRate ≤ 0.1 ∧
        0 ≤ (journeyPublish p f k).killRate ∧
        (journeyPublish p f k).killRate ≤ 0.08) ∧
      (setFeedRate p v).feedRate = v ∧
      (setKillRate p w).killRate = w ∧
      (easeParamsAt p tF tK e).feedRate = easeValue p.feedRate tF e := by
  refine ⟨⟨le_max_left 0 _, ?_, le_max_left 0 _, ?_⟩, rfl, rfl, rfl⟩
  · exact max_le (by norm_num) (min_le_left _ _)
  · exact max_le (by norm_num) (min_le_left _ _)

theorem easedProgress_le_one (e : ℝ) : easedProgress e ≤ 1 := by
  have h : (0 : ℝ) ≤ (1 - min 1 (e / 1000)) ^ 3 := by
    have : (0 : ℝ) ≤ 1 - min 1 (e / 1000) := by
      have := min_le_left (1 : ℝ) (e / 1000)
      linarith
    positivity
  simp only [easedProgress]
  linarith

theorem easedProgress_mono : Monotone easedProgress := by
  intro e₁ e₂ h
  simp only [easedProgress]
  have hp : min 1 (e₁ / 1000) ≤ min 1 (e₂ / 1000) := by
    apply min_le_min le_rfl
    exact div_le_div_of_nonneg_right h (by norm_num)
  have hq : 1 - min 1 (e₂ / 1000) ≤ 1 - min 1 (e₁ / 1000) := by linarith
  have hcube : (1 - min 1 (e₂ / 1000)) ^ 3 ≤ (1 - min 1 (e₁ / 1000)) ^ 3 := by
    nlinarith [sq_nonneg (1 - min 1 (e₂ / 1000)),
      sq_nonneg (1 - min 1 (e₁ / 1000)),
      sq_nonneg ((1 - min 1 (e₂ / 1000)) + (1 - min 1 (e₁ / 1000)))]
  linarith

theorem easeValue_dist (s t e : ℝ) :
    |t - easeValue s t e| = |t - s| * (1 - easedProgress e) := by
  have h1 : t - easeValue s t e = (t - s) * (1 - easedProgress e) := by
    simp only [easeValue]; ring
  rw [h1, abs_mul]
  congr 1
  exact abs_of_nonneg (by linarith [easedProgress_le_one e])

/-- C8: an eased transition with the fixed 1000 ms duration reaches the
target exactly once at least 1000 ms have elapsed, and at every pair of
intermediate samples the distance of each parameter from its target is
non-increasing (cubic ease-out is monotone). -/
theorem ease_completes_monotone (p : Params) (tF tK e e₁ e₂ : ℝ)
    (he : 1000 ≤ e) (h12 : e₁ ≤ e₂) :
    ((easeParamsAt p tF tK e).feedRate = tF ∧
        (easeParamsAt p tF tK e).killRate = tK) ∧
      |tF - (easeParamsAt p tF tK e₂).feedRate|
          ≤ |tF - (easeParamsAt p tF tK e₁).feedRate| ∧
      |tK - (easeParamsAt p tF tK e₂).killRate|
          ≤ |tK - (easeParamsAt p tF tK e₁).killRate| := by
  have hmin : min 1 (e / 1000) = 1 := by
    apply min_eq_left
    rw [le_div_iff₀ (by norm_num : (0:ℝ) < 1000)]
    linarith
  have hdone : easedProgress e = 1 := by
    simp only [easedProgress, hmin]
    norm_num
  have hmono := easedProgress_mono h12
  constructor
  · constructor <;>
      · simp only [easeParamsAt, easeValue, hdone]
        ring
  · have hF := easeValue_dist p.feedRate tF
    have hK := easeValue_dist p.killRate tK
    constructor
    · simp only [easeParamsAt]
      rw [hF e₁, hF e₂]
      apply mul_le_mul_of_nonneg_left (by linarith) (abs_nonneg _)
    · simp only [easeParamsAt]
      rw [hK e₁, hK e₂]
      apply mul_le_mul_of_nonneg_left (by linarith) (abs_nonneg _)

theorem ease_completes_monotone_witness :
    (((easeParamsAt { defaultParams with feedRate := 0.02, killRate := 0.03 }
          0.06 0.07 1500).feedRate = 0.06 ∧
        (easeParamsAt { defaultParams with feedRate := 0.02, killRate := 0.03 }
          0.06 0.07 1500).killRate = 0.07) ∧
      |(0.06 : ℝ) - (easeParamsAt { defaultParams with feedRate := 0.02, killRate := 0.03 }
          0.06 0.07 700).feedRate|
          ≤ |(0.06 : ℝ) - (easeParamsAt { defaultParams with feedRate := 0.02, killRate := 0.03 }
          0.06 0.07 200).feedRate| ∧
      |(0.07 : ℝ) - (easeParamsAt { defaultParams with feedRate := 0.02, killRate := 0.03 }
          0.06 0.07 700).killRate|
          ≤ |(0.07 : ℝ) - (easeParamsAt { defaultParams with feedRate := 0.02, killRate := 0.03 }
          0.06 0.07 200).killRate|) :=
  ease_completes_monotone { defaultParams with feedRate := 0.02, killRate := 0.03 }
    0.06 0.07 1500 200 700 (by norm_num) (by norm_num)

/-- The position at which the brush fragment shader samples cell (x, y):
pos = v_texCoord * u_resolution, evaluated at the fragment center. -/
def cellPos (x y : ℕ) : ℝ × ℝ := ((x : ℝ) + 0.5, (y : ℝ) + 0.5)

/-- GLSL distance(pos, brushPos): plain Euclidean distance, with no
toroidal wrap (the shader does not reduce the offsets modulo the
resolution). -/
def euclDist (p q : ℝ × ℝ) : ℝ :=
  Real.sqrt ((p.1 - q.1) ^ 2 + (p.2 - q.2) ^ 2)

/-- The brush falloff: falloff = 1 - dist/size, then squared and scaled
by the strength (brushSource lines 921-922). -/
def brushFalloff (size strength dist : ℝ) : ℝ :=
  (1 - dist / size) * (1 - dist / size) * strength

/-- One cell of the brush fragment shader (brushSource, main.js lines
905-935).  Inside the radius the falloff is subtracted from the g
channel when chemical A is selected (u_chemical = 0, floored at 0) and
added to the g channel when chemical B is selected (capped at 1); the r
channel is returned unchanged in every case, so only channel B is ever
painted. -/
def brushCell (bp : ℝ × ℝ) (size strength : ℝ) (chem : ℕ)
    (pos : ℝ × ℝ) (c : ℝ × ℝ) : ℝ × ℝ :=
  if euclDist pos bp < size then
    if chem = 0 then (c.1, max 0 (c.2 - brushFalloff size strength (euclDist pos bp)))
    else (c.1, min 1 (c.2 + brushFalloff size strength (euclDist pos bp)))
  else c

/-- One full-grid application of the brush program (applyBrush draws the
brush shader over the whole grid). -/
def applyBrushGrid (bp : ℝ × ℝ) (size strength : ℝ) (chem : ℕ)
    (g : Grid) : Grid :=
  fun x y => brushCell bp size strength chem (cellPos x y) (g x y)

/-- A uniform half-saturated field, used as a concrete test state. -/
def gHalf : Grid := fun _ _ => (0.5, 0.5)

theorem euclDist_self (p : ℝ × ℝ) : euclDist p p = 0 := by
  simp [euclDist]

theorem euclDist_00_70 : euclDist (cellPos 0 0) (cellPos 7 0) = 7 := by
  have h : euclDist (cellPos 0 0) (cellPos 7 0) = Real.sqrt 49 := by
    simp only [euclDist, cellPos]
    norm_num
  rw [h, show (49 : ℝ) = 7 ^ 2 by norm_num, Real.sqrt_sq (by norm_num : (0:ℝ) ≤ 7)]

theorem euclDist_00_44 : euclDist (cellPos 0 0) (cellPos 4 4) = Real.sqrt 32 := by
  simp only [euclDist, cellPos]
  norm_num

/-- C5 counterexample: with chemical A selected (chem = 0) the brush
leaves the selected channel A untouched and subtracts from the
non-selected channel B instead, and a cell one toroidal step from the
brush center across the seam is unaffected because the distance is
computed without wrap. -/
theorem force_channel_counterexample :
    ((applyBrushGrid (cellPos 0 0) 10 1 0 gHalf) 0 0).2 ≠ (gHalf 0 0).2 ∧
      ((applyBrushGrid (cellPos 0 0) 10 1 0 gHalf) 0 0).1 = (gHalf 0 0).1 ∧
      applyBrushGrid (cellPos 7 0) 2 1 1 gHalf 0 0 = gHalf 0 0 := by
  have h0 := euclDist_self (cellPos 0 0)
  refine ⟨?_, ?_, ?_⟩
  · simp only [applyBrushGrid, brushCell, brushFalloff, h0, gHalf]
    norm_num [max_def]
  · simp only [applyBrushGrid, brushCell, brushFalloff, h0, gHalf]
    norm_num
  · simp only [applyBrushGrid, brushCell, euclDist_00_70]
    rw [if_neg (by norm_num : ¬ (7:ℝ) < 2)]

/-- C5 amended: for every cell whose plain Euclidean distance from the
brush center is below the radius, the falloff (1 - dist/radius)^2 *
strength is subtracted from channel B when chemical A is selected and
added to channel B when chemical B is selected, clamped into [0, 1];
channel A of every cell is unchanged, and cells at or beyond the radius
are unchanged. -/
theorem force_brush_characterization (bp : ℝ × ℝ) (size strength : ℝ)
    (chem : ℕ) (g : Grid) (x y : ℕ) :
    ((applyBrushGrid bp size strength chem g) x y).1 = (g x y).1 ∧
      (euclDist (cellPos x y) bp < size →
        ((applyBrushGrid bp size strength chem g) x y).2 =
          if chem = 0 then
            max 0 ((g x y).2 - (1 - euclDist (cellPos x y) bp / size) ^ 2 * strength)
          else
            min 1 ((g x y).2 + (1 - euclDist (cellPos x y) bp / size) ^ 2 * strength)) ∧
      (size ≤ euclDist (cellPos x y) bp →
        applyBrushGrid bp size strength chem g x y = g x y) := by
  have hfall : ∀ d : ℝ, brushFalloff size strength d = (1 - d / size) ^ 2 * strength := by
    intro d; simp only [brushFalloff]; ring
  refine ⟨?_, ?_, ?_⟩
  · simp only [applyBrushGrid, brushCell]
    by_cases hd : euclDist (cellPos x y) bp < size
    · rw [if_pos hd]
      by_cases hc : chem = 0
      · rw [if_pos hc]
      · rw [if_neg hc]
    · rw [if_neg hd]
  · intro hd
    simp only [applyBrushGrid, brushCell]
    rw [if_pos hd]
    by_cases hc : chem = 0
    · rw [if_pos hc, if_pos hc, hfall]
    · rw [if_neg hc, if_neg hc, hfall]
  · intro hd
    simp only [applyBrushGrid, brushCell]
    rw [if_neg (not_lt.mpr hd)]

theorem force_brush_characterization_witness :
    ((applyBrushGrid (cellPos 0 0) 10 1 1 gHalf) 0 0).1 = (gHalf 0 0).1 ∧
      ((applyBrushGrid (cellPos 0 0) 10 1 1 gHalf) 0 0).2 =
        min 1 ((gHalf 0 0).2
          + (1 - euclDist (cellPos 0 0) (cellPos 0 0) / 10) ^ 2 * 1) ∧
      applyBrushGrid (cellPos 7 0) 2 1 1 gHalf 0 0 = gHalf 0 0 := by
  obtain ⟨h1, h2, -⟩ := force_brush_characterization (cellPos 0 0) 10 1 1 gHalf 0 0
  obtain ⟨-, -, h3⟩ := force_brush_characterization (cellPos 7 0) 2 1 1 gHalf 0 0
  refine ⟨h1, ?_, h3 ?_⟩
  · have hlt : euclDist (cellPos 0 0) (cellPos 0 0) < 10 := by
      rw [euclDist_self]; norm_num
    rw [h2 hlt, if_neg (by norm_num : ¬ (1:ℕ) = 0)]
  · rw [euclDist_00_70]; norm_num

/-- C7: painting with the brush centered on the center cell with
strength 1 on channel B (add) saturates channel B of the center cell to
exactly 1 (the falloff there is 1 and the sum is clamped); the painted
falloff is strictly decreasing in the distance up to the radius; and
every cell at distance at least the radius is unchanged. -/
theorem brush_center_raises (R : ℕ) (g : Grid) (size : ℝ) (x y : ℕ)
    (hsize : 0 < size) (hb : 0 ≤ (g (R / 2) (R / 2)).2) :
    ((applyBrushGrid (cellPos (R / 2) (R / 2)) size 1 1 g) (R / 2) (R / 2)).2 = 1 ∧
      (∀ d₁ d₂ : ℝ, 0 ≤ d₁ → d₁ < d₂ → d₂ < size →
        brushFalloff size 1 d₂ < brushFalloff size 1 d₁) ∧
      (size ≤ euclDist (cellPos x y) (cellPos (R / 2) (R / 2)) →
        applyBrushGrid (cellPos (R / 2) (R / 2)) size 1 1 g x y = g x y) := by
  refine ⟨?_, ?_, ?_⟩
  · simp only [applyBrushGrid, brushCell, euclDist_self]
    rw [if_pos hsize, if_neg (by norm_num : ¬ (1:ℕ) = 0)]
    have hfall : brushFalloff size 1 0 = 1 := by
      simp [brushFalloff]
    rw [hfall]
    exact min_eq_left (by linarith)
  · intro d₁ d₂ h1 h12 h2s
    simp only [brushFalloff, mul_one]
    have hd2 : d₂ / size < 1 := (div_lt_one hsize).mpr h2s
    have hdd : d₁ / size < d₂ / size := by gcongr
    exact mul_self_lt_mul_self (by linarith) (by linarith)
  · intro hd
    simp only [applyBrushGrid, brushCell]
    rw [if_neg (not_lt.mpr hd)]

theorem brush_center_raises_witness :
    ((applyBrushGrid (cellPos 4 4) 2 1 1 gHalf) 4 4).2 = 1 ∧
      brushFalloff 2 1 1 < brushFalloff 2 1 0 ∧
      applyBrushGrid (cellPos 4 4) 2 1 1 gHalf 0 0 = gHalf 0 0 := by
  obtain ⟨h1, h2, h3⟩ :=
    brush_center_raises 8 gHalf 2 0 0 (by norm_num) (by norm_num [gHalf])
  refine ⟨h1, h2 0 1 le_rfl (by norm_num) (by norm_num), h3 ?_⟩
  rw [euclDist_00_44]
  exact (Real.le_sqrt' (by norm_num : (0:ℝ) < 2)).mpr (by norm_num)

/-- The double-buffer state: the two textures and the index of the
current one (this.textures and this.currentTexture; cur = false means
texture 0 is current). -/
structure PingPong where
  buf0 : Grid
  buf1 : Grid
  cur : Bool

/-- The readable, authoritative texture: textures[currentTexture]. -/
def PingPong.current (s : PingPong) : Grid := if s.cur then s.buf1 else s.buf0

/-- The scratch texture: textures[1 - currentTexture]. -/
def PingPong.scratch (s : PingPong) : Grid := if s.cur then s.buf0 else s.buf1

/-- Render into the scratch framebuffer (framebuffers[1 - currentTexture]). -/
def writeScratch (s : PingPong) (g : Grid) : PingPong :=
  if s.cur then { s with buf0 := g } else { s with buf1 := g }

/-- Overwrite the current texture in place (texImage2D on
textures[currentTexture]). -/
def writeCurrent (s : PingPong) (g : Grid) : PingPong :=
  if s.cur then { s with buf1 := g } else { s with buf0 := g }

/-- this.currentTexture = 1 - this.currentTexture. -/
def swapPP (s : PingPong) : PingPong := { s with cur := !s.cur }

/-- One sub-step of simulate(): draw the simulation shader reading the
current texture into the scratch framebuffer, then flip the index. -/
def stepPP (R : ℕ) (p : Params) (s : PingPong) : PingPong :=
  swapPP (writeScratch s (stepGrid R p 1 s.current))

/-- applyBrush (main.js lines 1140-1168): draw the brush shader reading
the current texture into the scratch framebuffer, then flip the index. -/
def applyBrushPP (bp : ℝ × ℝ) (size strength : ℝ) (chem : ℕ)
    (s : PingPong) : PingPong :=
  swapPP (writeScratch s (applyBrushGrid bp size strength chem s.current))

/-- The CPU-side edit of applyStamp (main.js lines 1623-1636): set
channel B to 255/255 = 1 at every in-bounds pixel (px, py) reachable as
px = floor(x) + dx, py = floor(R - y) + dy with dx^2 + dy^2 <= radius^2,
which per cell is the integer disc test below; channel A is kept. -/
def stampGrid (R : ℕ) (x y : ℝ) (radius : ℕ) (g : Grid) : Grid :=
  fun px py =>
    if px < R ∧ py < R ∧
        ((px : ℤ) - ⌊x⌋) ^ 2 + ((py : ℤ) - ⌊(R : ℝ) - y⌋) ^ 2 ≤ (radius : ℤ) ^ 2
    then ((g px py).1, 1)
    else g px py

/-- applyStamp (main.js lines 1614-1641): readPixels from the
framebuffer of the CURRENT texture, stamp the disc, and texImage2D the
result back into the CURRENT texture; the index is not flipped. -/
def applyStampPP (R : ℕ) (x y : ℝ) (radius : ℕ) (s : PingPong) : PingPong :=
  writeCurrent s (stampGrid R x y radius s.current)

/-- The buffer pair right after seedPattern(), which uploads the same
seed data to both textures; texture 0 is current. -/
def ppInit : PingPong := ⟨seedA, seedA, false⟩

/-- C6 counterexample: a stamp application leaves the current-buffer
index unchanged (no swap is triggered) and mutates the current buffer
in place while the scratch buffer keeps its old contents, so the stamp
does not follow the read-current/write-scratch/swap discipline. -/
theorem stamp_discipline_counterexample :
    (applyStampPP 8 4 4 2 ppInit).cur = ppInit.cur ∧
      (applyStampPP 8 4 4 2 ppInit).buf0 4 4 ≠ ppInit.buf0 4 4 ∧
      (applyStampPP 8 4 4 2 ppInit).buf1 = ppInit.buf1 := by
  refine ⟨rfl, ?_, rfl⟩
  simp only [applyStampPP, writeCurrent, ppInit, PingPong.current,
    Bool.false_eq_true, if_false, stampGrid, seedA]
  norm_num [Prod.ext_iff]

/-- C6 amended: the brush follows the same
read-current/write-scratch/swap discipline as a stepper sub-step, but
the stamp keeps the index, rewrites the current buffer in place, and
leaves the scratch buffer untouched. -/
theorem forcing_buffer_discipline (R : ℕ) (p : Params) (bp : ℝ × ℝ)
    (size strength : ℝ) (chem : ℕ) (x y : ℝ) (radius : ℕ) (s : PingPong) :
    ((applyBrushPP bp size strength chem s).cur = !s.cur ∧
        (applyBrushPP bp size strength chem s).current
          = applyBrushGrid bp size strength chem s.current ∧
        (applyBrushPP bp size strength chem s).scratch = s.current) ∧
      ((stepPP R p s).cur = !s.cur ∧
        (stepPP R p s).current = stepGrid R p 1 s.current ∧
        (stepPP R p s).scratch = s.current) ∧
      ((applyStampPP R x y radius s).cur = s.cur ∧
        (applyStampPP R x y radius s).current
          = stampGrid R x y radius s.current ∧
        (applyStampPP R x y radius s).scratch = s.scratch) := by
  obtain ⟨b0, b1, c⟩ := s
  cases c <;>
    simp [applyBrushPP, applyStampPP, stepPP, swapPP, writeScratch,
      writeCurrent, PingPong.current, PingPong.scratch]

/-- An RGB color as used by the render shader. -/
abbrev Vec3 := ℝ × ℝ × ℝ

/-- GLSL mix(x, y, a) componentwise: x * (1 - a) + y * a. -/
def mix3 (u v : Vec3) (t : ℝ) : Vec3 :=
  (u.1 * (1 - t) + v.1 * t,
    u.2.1 * (1 - t) + v.2.1 * t,
    u.2.2 * (1 - t) + v.2.2 * t)

/-- The scalar pipeline of renderSource (main.js lines 889-896):
value = state.g, then (value - 0.5) * contrast + 0.5, then times
brightness, then clamp to [0, 1] - the clamp comes after the brightness
multiplication. -/
def colorValue (contrast brightness v : ℝ) : ℝ :=
  clamp01 (((v - 0.5) * contrast + 0.5) * brightness)

/-- One pixel of the render shader: mix the two configured colors by the
transformed value of channel B. -/
def renderCell (c1 c2 : Vec3) (contrast brightness : ℝ) (cell : ℝ × ℝ) : Vec3 :=
  mix3 c1 c2 (colorValue contrast brightness cell.2)

/-- The value transform as the spec words it, with the clamp applied to
the contrast term BEFORE the multiplication by brightness.  Kept for
comparison with the source pipeline colorValue. -/
def spec_colorValue (contrast brightness v : ℝ) : ℝ :=
  clamp01 ((v - 0.5) * contrast + 0.5) * brightness

/-- C9 counterexample: at value 1, contrast 2, brightness 0.5 the source
pipeline yields 0.75 (clamp after the brightness multiply) while the
claimed formula yields 0.5 (clamp before), and the rendered pixel
differs accordingly. -/
theorem colorizer_clamp_counterexample :
    colorValue 2 0.5 1 ≠ spec_colorValue 2 0.5 1 ∧
      renderCell (0, 0, 0) (1, 1, 1) 2 0.5 (0, 1)
        ≠ mix3 (0, 0, 0) (1, 1, 1) (spec_colorValue 2 0.5 1) := by
  constructor
  · norm_num [colorValue, spec_colorValue, clamp01, min_def, max_def]
  · simp only [renderCell, mix3, colorValue, spec_colorValue, clamp01]
    norm_num [Prod.ext_iff, min_def, max_def]

/-- C9 amended: the colorizer is a pure function of channel B alone (the
A channel never influences the output), and the mix factor is
clamp01(((value - 0.5) * contrast + 0.5) * brightness), the clamp
applied after the multiplication by brightness. -/
theorem colorizer_characterization (c1 c2 : Vec3)
    (contrast brightness a a2 b : ℝ) :
    renderCell c1 c2 contrast brightness (a, b)
        = renderCell c1 c2 contrast brightness (a2, b) ∧
      renderCell c1 c2 contrast brightness (a, b)
        = mix3 c1 c2 (clamp01 (((b - 0.5) * contrast + 0.5) * brightness)) :=
  ⟨rfl, rfl⟩

/-- The whole-engine state touched by the per-frame simulate() call. -/
structure Machine where
  pp : PingPong
  params : Params
  isRunning : Bool

/-- steps = Math.ceil(simSpeed * 8); a non-positive count runs the loop
zero times. -/
def simSteps (speed : ℝ) : ℕ := (⌈speed * 8⌉).toNat

/-- simulate() (main.js lines 1072-1109): an early return when paused,
otherwise steps ping-pong sub-steps with the live parameters. -/
def simulateFrame (R : ℕ) (m : Machine) : Machine :=
  if m.isRunning then
    { m with pp := (stepPP R m.params)^[simSteps m.params.simSpeed] m.pp }
  else m

/-- C10: when the simulation is paused, a simulate() call performs zero
sub-steps and leaves the machine - both buffers and the current-buffer
index included - unchanged, for every field state and every simSpeed. -/
theorem paused_simulate_noop (R : ℕ) (m : Machine)
    (h : m.isRunning = false) : simulateFrame R m = m := by
  simp [simulateFrame, h]

theorem paused_simulate_noop_witness :
    simulateFrame 8 ⟨ppInit, defaultParams, false⟩
      = ⟨ppInit, defaultParams, false⟩ :=
  paused_simulate_noop 8 ⟨ppInit, defaultParams, false⟩ rfl
